import Mathlib

/-!
Verification of the rs_ping ICMP echo client (src/pinger.rs, src/stats.rs,
src/config.rs, src/error.rs) against its natural-language specification.

The Rust sources are shallowly embedded:
* bytes are `Nat` values, with `< 256` hypotheses where the byte range matters;
* `Duration` and `Instant` values are nanosecond counts (`Nat`);
* the `u32` checksum accumulator is modelled as an unbounded `Nat`: every
  buffer this program checksums has at most 64 bytes (the send buffer has 8,
  the receive buffer has 64), so the accumulated sum is at most 32 * 0xFFFF
  and the `u32` cannot overflow;
* fallible operations return `Except PingError`; the one genuine partiality
  (`calculate_checksum` panics on an empty buffer, see below) returns `Option`;
* the I/O of the session loop (`Pinger::run`) is modelled by a list of
  per-iteration environment observations (`IterInput`): the value of the
  shared `running` flag at the loop head, the bytes delivered by
  `recv_from`, and the `Instant` clock readings at send and receive time.
-/

namespace RsPing

/-- The error enumeration of src/error.rs. Payloads (io::Error, String) carry
no information used by the session logic and are dropped. -/
inductive PingError where
  | socketError
  | invalidAddress
  | timeout
  | packetError
  | socketNotInitialized
  | invalidResponse
  | signalError
deriving DecidableEq, Repr

/-- The statistics aggregator of src/stats.rs. `packets_sent` and
`packets_received` are `u32` in the source, modelled as `Nat` (the
checked-arithmetic overflow after 2^32 increments is not modelled);
round-trip times are nanosecond counts. -/
structure PingStats where
  packets_sent : Nat
  packets_received : Nat
  min_rtt : Option Nat
  max_rtt : Option Nat
  total_rtt : Nat
deriving DecidableEq, Repr

/-- PingStats::new, via the derived Default (all counters zero, no extrema). -/
def PingStats.new : PingStats :=
  { packets_sent := 0, packets_received := 0, min_rtt := none,
    max_rtt := none, total_rtt := 0 }

/-- stats.rs record_sent: increments the sent counter. -/
def PingStats.record_sent (s : PingStats) : PingStats :=
  { s with packets_sent := s.packets_sent + 1 }

/-- stats.rs update_rtt: min/max fold (map_or) and running total. -/
def PingStats.update_rtt (s : PingStats) (rtt : Nat) : PingStats :=
  { s with
    min_rtt := some (s.min_rtt.elim rtt (fun m => min m rtt)),
    max_rtt := some (s.max_rtt.elim rtt (fun m => max m rtt)),
    total_rtt := s.total_rtt + rtt }

/-- stats.rs record_received: increments the received counter, then
updates the round-trip extrema and total. -/
def PingStats.record_received (s : PingStats) (rtt : Nat) : PingStats :=
  PingStats.update_rtt { s with packets_received := s.packets_received + 1 } rtt

/-- stats.rs get_loss_percetange (source spelling kept). The `f64`
arithmetic is modelled exactly over `ℚ`. The `u32` subtraction
`packets_sent - packets_received` is truncating `Nat` subtraction. -/
def PingStats.get_loss_percetange (s : PingStats) : ℚ :=
  if s.packets_sent = 0 then 0
  else ((s.packets_sent - s.packets_received : Nat) : ℚ) / (s.packets_sent : ℚ) * 100

/-- stats.rs get_avg_rtt: total_rtt / packets_received when at least one
reply was received (Duration division truncates to the nanosecond). -/
def PingStats.get_avg_rtt (s : PingStats) : Option Nat :=
  if s.packets_received > 0 then some (s.total_rtt / s.packets_received) else none

/-- Left-pads a three-digit decimal fraction with zeros. -/
def pad3 (n : Nat) : String :=
  if n < 10 then "00" ++ toString n
  else if n < 100 then "0" ++ toString n
  else toString n

/-- Rounds a nanosecond count to microseconds, ties to even. -/
def roundMicros (nanos : Nat) : Nat :=
  let q := nanos / 1000
  let r := nanos % 1000
  if r > 500 then q + 1
  else if r < 500 then q
  else if q % 2 = 0 then q else q + 1

/-- Renders a duration given in nanoseconds as milliseconds with three
decimal places, modelling `format!("\x7b:.3\x7d", d.as_secs_f64() * 1000.0)`
(stats.rs duration_as_ms and the format in format_rtt) by exact integer
arithmetic on the real value of the duration; the double rounding through
the `f64` representation is not modelled. -/
def formatMs3 (nanos : Nat) : String :=
  let micros := roundMicros nanos
  toString (micros / 1000) ++ "." ++ pad3 (micros % 1000)

/-- stats.rs format_rtt: the three-way match on (min_rtt, avg, max_rtt).
Note the source includes a literal " ms" suffix in the placeholder arm
but not in the numeric arm. -/
def PingStats.format_rtt (s : PingStats) : String :=
  match s.min_rtt, s.get_avg_rtt, s.max_rtt with
  | some mn, some avg, some mx =>
      formatMs3 mn ++ "/" ++ formatMs3 avg ++ "/" ++ formatMs3 mx
  | _, _, _ => "---/---/--- ms"

/-- The rtt line printed by pinger.rs print_statistics (line 148):
the format string appends a " ms" suffix after format_rtt's output. -/
def statisticsRttLine (s : PingStats) : String :=
  "rtt min/avg/max = " ++ s.format_rtt ++ " ms"

/-- The configuration bundle of src/config.rs; durations in nanoseconds. -/
structure PingConfig where
  count : Option Nat
  interval : Nat
  timeout : Nat
  ttl : Nat
  packet_size : Nat
deriving DecidableEq, Repr

/-- config.rs Default: unbounded count, 1 s interval, 2 s timeout,
ttl 64, packet_size 56. -/
def PingConfig.default : PingConfig :=
  { count := none, interval := 1000000000, timeout := 2000000000,
    ttl := 64, packet_size := 56 }

/-- config.rs with_count builder. -/
def PingConfig.with_count (c : PingConfig) (count : Nat) : PingConfig :=
  { c with count := some count }

/-- config.rs with_interval builder. -/
def PingConfig.with_interval (c : PingConfig) (interval : Nat) : PingConfig :=
  { c with interval := interval }

/-- pinger.rs shoud_continue (source spelling kept): `seq < count` when a
count is configured, always true otherwise. -/
def shoudContinue (cfg : PingConfig) (seq : Nat) : Bool :=
  match cfg.count with
  | some count => seq < count
  | none => true

/-- The byte-pair summation of pinger.rs calculate_checksum. The source
iterates `i` over the buffer two bytes at a stride (`while i < len - 1`),
adding `(buf[i] << 8) | buf[i+1]` for each pair, and then adds
`buf[len-1] << 8` when the length is odd; this is modelled by structural
recursion two bytes at a time, the singleton case being the trailing odd
byte. -/
def wordSum : List Nat → Nat
  | [] => 0
  | [b] => b <<< 8
  | b1 :: b2 :: rest => ((b1 <<< 8) ||| b2) + wordSum rest

/-- The carry-folding loop of pinger.rs calculate_checksum:
`while (sum >> 16) != 0 do sum = (sum & 0xFFFF) + (sum >> 16)`. -/
def foldCarries (sum : Nat) : Nat :=
  if sum >>> 16 = 0 then sum
  else foldCarries ((sum &&& 0xFFFF) + (sum >>> 16))
termination_by sum
decreasing_by
  rename_i h
  rw [Nat.shiftRight_eq_div_pow] at h ⊢
  have hm := Nat.and_pow_two_sub_one_eq_mod sum 16
  norm_num at hm h ⊢
  omega

/-- pinger.rs calculate_checksum. On the empty buffer the loop bound
`len - 1` underflows in `usize` arithmetic and the subsequent indexing
panics (in checked and release builds alike), modelled as `none`. On a
non-empty buffer the result is the bitwise `u32` NOT of the folded sum
(`!sum`, which equals `0xFFFFFFFF - sum` for `sum < 2^32`) truncated to
`u16` (`% 65536`). -/
def calculate_checksum (buf : List Nat) : Option Nat :=
  if buf.isEmpty then none
  else some ((0xFFFFFFFF - foldCarries (wordSum buf)) % 65536)

/-- The 8-byte ICMP header assembled by pinger.rs send_ping before the
checksum is written: `vec![0u8; 8]` with `buf[0] = 8` (Echo Request),
`buf[1] = 0` (code), and `(seq as u16).to_be_bytes()` copied into
`buf[4..6]`; the `u32 -> u16` cast truncates (`% 65536`) and
`to_be_bytes` yields the high then the low byte. -/
def sendHeaderBase (seq : Nat) : List Nat :=
  [8, 0, 0, 0, (seq % 65536) >>> 8, (seq % 65536) &&& 0xFF, 0, 0]

/-- send_ping's `buf[2..4].copy_from_slice(&checksum.to_be_bytes())`:
writes the big-endian bytes of the checksum into positions 2 and 3. -/
def setChecksumField (buf : List Nat) (c : Nat) : List Nat :=
  (buf.set 2 (c >>> 8)).set 3 (c &&& 0xFF)

/-- The frame transmitted by send_ping for a given sequence counter value:
the header with its checksum field filled in. The checksum exists because
the header has 8 bytes (getD's default is never used). -/
def sendFrame (seq : Nat) : List Nat :=
  setChecksumField (sendHeaderBase seq) ((calculate_checksum (sendHeaderBase seq)).getD 0)

/-- u16::from_be_bytes: reassembles a big-endian byte pair. -/
def u16FromBe (hi lo : Nat) : Nat := (hi <<< 8) ||| lo

/-- The structural validation and extraction that pinger.rs receive_pong
performs on the received bytes (lines 118-138): a frame shorter than
20 + 8 bytes is InvalidResponse; otherwise the ICMP type byte at offset 20
must be 0 (Echo Reply), and on success the printed sequence number is
`u16::from_be_bytes([buf[24], buf[25]])` and the printed ttl is `buf[8]`. -/
def receiveClassify (buf : List Nat) : Except PingError (Nat × Nat) :=
  if 28 ≤ buf.length then
    if buf.getD 20 0 = 0 then
      .ok (u16FromBe (buf.getD 24 0) (buf.getD 25 0), buf.getD 8 0)
    else .error .invalidResponse
  else .error .invalidResponse

/-- The mutable state of pinger.rs Pinger that the session loop touches.
`sent_frames` is a ghost field recording, in order, each buffer passed to
`socket.send_to`; it has no influence on control flow. -/
structure Pinger where
  stats : PingStats
  socket : Option Unit
  current_ping_start : Option Nat
  sent_frames : List (List Nat)
deriving DecidableEq, Repr

/-- Pinger::new: empty statistics, no socket, no outstanding request. -/
def Pinger.new : Pinger :=
  { stats := PingStats.new, socket := none, current_ping_start := none,
    sent_frames := [] }

/-- Pinger::init: raw-socket creation, modelled as succeeding (its
SocketError failure mode aborts the run before the loop and is outside
the claims considered here). -/
def Pinger.init (p : Pinger) : Pinger := { p with socket := some () }

/-- pinger.rs send_ping: fails with SocketNotInitialized when no socket is
present; otherwise transmits the checksummed header, records the send in
the statistics and stores the send Instant in current_ping_start. -/
def sendPing (st : Pinger) (seq : Nat) (sendInstant : Nat) : Except PingError Pinger :=
  match st.socket with
  | none => .error .socketNotInitialized
  | some _ =>
      .ok { st with
            stats := st.stats.record_sent,
            current_ping_start := some sendInstant,
            sent_frames := st.sent_frames ++ [sendFrame seq] }

/-- pinger.rs receive_pong: fails with SocketNotInitialized when no socket
is present; a structurally valid Echo Reply (at least 28 bytes, type byte
0 at offset 20) records the elapsed round-trip time when an outstanding
send Instant is present (`current_ping_start.take()`) and succeeds; any
other frame fails with InvalidResponse. `frame` is the byte sequence
returned by `recv_from` (at most 64 bytes in the source). -/
def receivePong (st : Pinger) (frame : List Nat) (recvInstant : Nat) : Except PingError Pinger :=
  match st.socket with
  | none => .error .socketNotInitialized
  | some _ =>
      if 28 ≤ frame.length then
        if frame.getD 20 0 = 0 then
          match st.current_ping_start with
          | some start =>
              .ok { st with
                    stats := st.stats.record_received (recvInstant - start),
                    current_ping_start := none }
          | none => .ok st
        else .error .invalidResponse
      else .error .invalidResponse

/-- One iteration's environment observations for the session loop: the
value of the shared `running` flag at the loop head, the bytes delivered
by `recv_from`, and the clock readings at send and receive time. -/
structure IterInput where
  running : Bool
  frame : List Nat
  sendInstant : Nat
  recvInstant : Nat
deriving DecidableEq, Repr

/-- The while loop of pinger.rs run: while `shoud_continue(seq)` and the
running flag hold, send one request (`?` propagates its error), receive
one reply (`?` propagates its error), and continue with `seq + 1` (a `u32`
increment, wrapping at 2^32). Loop exits return the final state (`run`
then prints the statistics); `none` means the environment trace ended
while the loop was still demanding an observation (a genuinely blocked
`recv_from` is not otherwise representable). -/
def runLoop (cfg : PingConfig) (st : Pinger) (seq : Nat) :
    List IterInput → Option (Except PingError Pinger)
  | [] => if shoudContinue cfg seq then none else some (.ok st)
  | inp :: rest =>
      if shoudContinue cfg seq then
        if inp.running then
          match sendPing st seq inp.sendInstant with
          | .error e => some (.error e)
          | .ok st1 =>
              match receivePong st1 inp.frame inp.recvInstant with
              | .error e => some (.error e)
              | .ok st2 => runLoop cfg st2 ((seq + 1) % 4294967296) rest
        else some (.ok st)
      else some (.ok st)

/-- pinger.rs run: socket setup, then the loop from seq = 0; on normal
loop exit print_statistics renders the final statistics and run returns
Ok, modelled by returning the final statistics; an error anywhere
propagates to the caller and no statistics are printed. -/
def run (cfg : PingConfig) (inputs : List IterInput) : Option (Except PingError PingStats) :=
  match runLoop cfg Pinger.new.init 0 inputs with
  | none => none
  | some (.error e) => some (.error e)
  | some (.ok st) => some (.ok st.stats)

/-- A 28-byte all-zero inbound frame: long enough, type byte 0, a
structurally valid Echo Reply. -/
def validReplyFrame : List Nat := List.replicate 28 0

/-- A 4-byte inbound frame: fails the length check of receive_pong. -/
def shortFrame : List Nat := [69, 0, 0, 20]

/-- An iteration in which a valid reply arrives 5 ms after the send. -/
def inputOk : IterInput :=
  { running := true, frame := validReplyFrame, sendInstant := 0, recvInstant := 5000000 }

/-- An iteration in which the received frame is too short. -/
def inputBad : IterInput :=
  { running := true, frame := shortFrame, sendInstant := 0, recvInstant := 0 }

/-- The default configuration limited to a single ping. -/
def cfgOnce : PingConfig := PingConfig.default.with_count 1

/-- The statistics state after four record_sent calls and three
record_received calls of 100 ms each (the scenario of the
test_packet_loss_calculation test in src/lib.rs). -/
def statsFourThree : PingStats :=
  (((PingStats.new.record_sent.record_sent.record_sent.record_sent).record_received
      100000000).record_received 100000000).record_received 100000000

/-- The session state after one complete successful iteration of the loop
started from a fresh initialized Pinger with inputOk: one packet sent, one
received with a 5000000 ns round-trip time (min = max = total), no
outstanding request, one transmitted frame. -/
def pingerAfterOne : Pinger :=
  { stats := PingStats.new.record_sent.record_received 5000000,
    socket := some (), current_ping_start := none,
    sent_frames := [sendFrame 0] }

/-- Modelled from the spec (section 4.1 checksum contract): the buffer read
as big-endian 16-bit words, a trailing odd byte treated as the high byte of
a zero-extended word. -/
def toWords : List Nat → List Nat
  | [] => []
  | [b] => [b * 256]
  | b1 :: b2 :: rest => (b1 * 256 + b2) :: toWords rest

/-- Modelled from the spec (section 4.1 checksum contract): the RFC 1071
Internet checksum — the word sum, carries folded back until none remain,
then the bitwise NOT of the 16-bit result (NOT of a 16-bit value x is
65535 - x). The carry fold is the same loop the spec describes
operationally, shared with the source embedding. -/
def rfc1071 (buf : List Nat) : Nat :=
  65535 - foldCarries (toWords buf).sum

/-! Helper lemmas about the carry fold and byte arithmetic. -/

theorem foldCarries_small {x : Nat} (h : x < 65536) : foldCarries x = x := by
  rw [foldCarries]
  have hx : x >>> 16 = 0 := by
    rw [Nat.shiftRight_eq_div_pow]
    norm_num
    omega
  simp [hx]

theorem foldCarries_lt (x : Nat) : foldCarries x < 65536 := by
  induction x using Nat.strong_induction_on with
  | _ n ih =>
    rw [foldCarries]
    split
    · rename_i h
      rw [Nat.shiftRight_eq_div_pow] at h
      norm_num at h
      omega
    · rename_i h
      apply ih
      rw [Nat.shiftRight_eq_div_pow] at h ⊢
      have hm := Nat.and_pow_two_sub_one_eq_mod n 16
      norm_num at hm h ⊢
      omega

theorem foldCarries_le (x : Nat) : foldCarries x ≤ x := by
  induction x using Nat.strong_induction_on with
  | _ n ih =>
    rw [foldCarries]
    split
    · exact Nat.le_refl n
    · rename_i h
      have hlt : (n &&& 0xFFFF) + (n >>> 16) < n := by
        rw [Nat.shiftRight_eq_div_pow] at h ⊢
        have hm := Nat.and_pow_two_sub_one_eq_mod n 16
        norm_num at hm h ⊢
        omega
      exact Nat.le_trans (ih _ hlt) (Nat.le_of_lt hlt)

theorem foldCarries_pos {x : Nat} (h : 0 < x) : 0 < foldCarries x := by
  induction x using Nat.strong_induction_on with
  | _ n ih =>
    rw [foldCarries]
    split
    · exact h
    · rename_i hs
      have hlt : (n &&& 0xFFFF) + (n >>> 16) < n := by
        rw [Nat.shiftRight_eq_div_pow] at hs ⊢
        have hm := Nat.and_pow_two_sub_one_eq_mod n 16
        norm_num at hm hs ⊢
        omega
      apply ih _ hlt
      rw [Nat.shiftRight_eq_div_pow] at hs
      norm_num at hs
      omega

theorem foldCarries_mod (x : Nat) : foldCarries x % 65535 = x % 65535 := by
  induction x using Nat.strong_induction_on with
  | _ n ih =>
    rw [foldCarries]
    split
    · rfl
    · rename_i h
      have hlt : (n &&& 0xFFFF) + (n >>> 16) < n := by
        rw [Nat.shiftRight_eq_div_pow] at h ⊢
        have hm := Nat.and_pow_two_sub_one_eq_mod n 16
        norm_num at hm h ⊢
        omega
      rw [ih _ hlt]
      rw [Nat.shiftRight_eq_div_pow]
      have hm := Nat.and_pow_two_sub_one_eq_mod n 16
      norm_num at hm ⊢
      omega

theorem or256_eq_add (a b : Nat) (h : b < 256) : (a <<< 8) ||| b = a * 256 + b := by
  have h2 := Nat.mul_add_lt_is_or (i := 8) (b := b) (by omega) a
  calc (a <<< 8) ||| b = 2 ^ 8 * a ||| b := by rw [Nat.shiftLeft_eq, Nat.mul_comm]
    _ = 2 ^ 8 * a + b := h2.symm
    _ = a * 256 + b := by ring

theorem beBytesWord (c : Nat) : ((c >>> 8) <<< 8) ||| (c &&& 0xFF) = c := by
  have hm := Nat.and_pow_two_sub_one_eq_mod c 8
  norm_num at hm
  rw [or256_eq_add _ _ (by omega)]
  rw [Nat.shiftRight_eq_div_pow]
  norm_num
  omega

theorem getD_lt_256 {buf : List Nat} {n : Nat} (hb : ∀ b ∈ buf, b < 256)
    (h : n < buf.length) : buf.getD n 0 < 256 := by
  rw [List.getD_eq_getElem buf 0 h]
  exact hb _ (List.getElem_mem h)

theorem wordSum_eq_toWords : ∀ (buf : List Nat), (∀ b ∈ buf, b < 256) →
    wordSum buf = (toWords buf).sum
  | [], _ => rfl
  | [b], _ => by
      simp [wordSum, toWords, Nat.shiftLeft_eq]
  | b1 :: b2 :: rest, h => by
      have hb2 : b2 < 256 := h b2 (by simp)
      have hrec := wordSum_eq_toWords rest (fun b hb => h b (by simp [hb]))
      simp [wordSum, toWords, hrec, or256_eq_add b1 b2 hb2]

/-- Embedding a correct checksum into a zeroed field makes the folded word
sum collapse to 0xFFFF: the algebraic core of the round-trip law. -/
theorem foldCarries_embed (W : Nat) :
    foldCarries (W + (65535 - foldCarries W)) = 65535 := by
  have h1 := foldCarries_lt W
  have h2 := foldCarries_le W
  have h3 := foldCarries_mod W
  have h4 := foldCarries_lt (W + (65535 - foldCarries W))
  have h5 := foldCarries_mod (W + (65535 - foldCarries W))
  have h6 : 0 < W + (65535 - foldCarries W) := by omega
  have h7 := foldCarries_pos h6
  omega

/-! The claims. -/

/-- Claim C4, counterexample: on the empty buffer `calculate_checksum`
does not return the RFC 1071 checksum (it panics: the loop bound
`len - 1` underflows), refuting the claim's universal quantification
over every byte buffer. -/
theorem c4_checksum_empty_cex : calculate_checksum [] ≠ some (rfc1071 []) := by
  simp [calculate_checksum]

/-- Claim C4 (amended to non-empty buffers): for every non-empty byte
buffer, calculate_checksum returns the RFC 1071 Internet checksum — the
big-endian 16-bit word sum (trailing odd byte zero-extended), carries
folded back until none remain, then bitwise NOT of the 16-bit result. -/
theorem c4_checksum_is_rfc1071 (buf : List Nat) (hne : buf ≠ [])
    (hb : ∀ b ∈ buf, b < 256) :
    calculate_checksum buf = some (rfc1071 buf) := by
  have hS := foldCarries_lt ((toWords buf).sum)
  have hEmpty : buf.isEmpty = false := by
    cases buf with
    | nil => exact absurd rfl hne
    | cons a l => rfl
  simp [calculate_checksum, hEmpty, rfc1071, wordSum_eq_toWords buf hb]
  omega

/-- Claim C4, witness at the buffer [69, 1]. -/
theorem c4_checksum_is_rfc1071_witness :
    calculate_checksum [69, 1] = some (rfc1071 [69, 1]) :=
  c4_checksum_is_rfc1071 [69, 1] (by decide) (by decide)

/-- Claim C6: for every buffer of at least 4 bytes whose checksum field
(bytes 2-3) is zero, writing the computed checksum into bytes 2-3
big-endian and re-running the checksum yields 0. -/
theorem c6_checksum_roundtrip (buf : List Nat) (hlen : 4 ≤ buf.length)
    (h2 : buf.getD 2 0 = 0) (h3 : buf.getD 3 0 = 0)
    (hb : ∀ b ∈ buf, b < 256) :
    calculate_checksum (setChecksumField buf ((calculate_checksum buf).getD 0)) = some 0 := by
  rcases buf with _ | ⟨b0, _ | ⟨b1, _ | ⟨b2, _ | ⟨b3, rest⟩⟩⟩⟩
  · simp at hlen
  · simp at hlen
  · simp at hlen
  · simp at hlen
  have hb2 : b2 = 0 := by simpa using h2
  have hb3 : b3 = 0 := by simpa using h3
  subst hb2
  subst hb3
  have hS_lt := foldCarries_lt (wordSum (b0 :: b1 :: 0 :: 0 :: rest))
  have hgetD : (calculate_checksum (b0 :: b1 :: 0 :: 0 :: rest)).getD 0
      = 65535 - foldCarries (wordSum (b0 :: b1 :: 0 :: 0 :: rest)) := by
    simp [calculate_checksum]
    omega
  rw [hgetD]
  have hWnew : wordSum (setChecksumField (b0 :: b1 :: 0 :: 0 :: rest)
        (65535 - foldCarries (wordSum (b0 :: b1 :: 0 :: 0 :: rest))))
      = wordSum (b0 :: b1 :: 0 :: 0 :: rest)
        + (65535 - foldCarries (wordSum (b0 :: b1 :: 0 :: 0 :: rest))) := by
    simp [setChecksumField, List.set, wordSum, beBytesWord]
    omega
  have hkey := foldCarries_embed (wordSum (b0 :: b1 :: 0 :: 0 :: rest))
  calc calculate_checksum (setChecksumField (b0 :: b1 :: 0 :: 0 :: rest)
          (65535 - foldCarries (wordSum (b0 :: b1 :: 0 :: 0 :: rest))))
      = some ((0xFFFFFFFF - foldCarries (wordSum (setChecksumField
          (b0 :: b1 :: 0 :: 0 :: rest)
          (65535 - foldCarries (wordSum (b0 :: b1 :: 0 :: 0 :: rest)))))) % 65536) := rfl
    _ = some ((0xFFFFFFFF - 65535) % 65536) := by rw [hWnew, hkey]
    _ = some 0 := by norm_num

/-- Claim C6, witness at the buffer [8, 0, 0, 0, 1, 2, 3, 4]. -/
theorem c6_checksum_roundtrip_witness :
    calculate_checksum (setChecksumField [8, 0, 0, 0, 1, 2, 3, 4]
      ((calculate_checksum [8, 0, 0, 0, 1, 2, 3, 4]).getD 0)) = some 0 :=
  c6_checksum_roundtrip [8, 0, 0, 0, 1, 2, 3, 4] (by decide) (by decide)
    (by decide) (by decide)

/-- Claim C10: calculate_checksum is defined on every non-empty buffer but
not on the empty buffer (the `len - 1` loop bound underflows and indexing
panics), and the program's only call site — send_ping's checksum of the
header it just built — always passes a buffer of length 8. -/
theorem c10_checksum_totality :
    calculate_checksum [] = none ∧
    (∀ buf : List Nat, buf ≠ [] → (calculate_checksum buf).isSome = true) ∧
    (∀ seq : Nat, (sendHeaderBase seq).length = 8) := by
  refine ⟨rfl, ?_, fun seq => rfl⟩
  intro buf hne
  have hEmpty : buf.isEmpty = false := by
    cases buf with
    | nil => exact absurd rfl hne
    | cons a l => rfl
  simp [calculate_checksum, hEmpty]

/-- Claim C10, witness at the buffer [0]. -/
theorem c10_checksum_totality_witness : (calculate_checksum [0]).isSome = true :=
  c10_checksum_totality.2.1 [0] (by decide)

/-- Claim C2, code bug: send_ping transmits only the 8-byte ICMP header —
the configured packet_size (default 56) is never used to append a payload,
so the frame is 8 bytes, not 8 + packet_size. -/
theorem c2_frame_has_no_payload :
    (sendFrame 0).length = 8 ∧
    (sendFrame 0).length ≠ 8 + PingConfig.default.packet_size := by
  exact ⟨rfl, by decide⟩

/-- Claim C3, code bug: with no replies recorded, format_rtt's placeholder
arm already contains a " ms" suffix and print_statistics appends another,
so the printed line ends in "ms ms"; the numeric arm (second conjunct,
after one 1 ms reply) renders as the claim states. -/
theorem c3_placeholder_double_ms :
    statisticsRttLine PingStats.new = "rtt min/avg/max = ---/---/--- ms ms" ∧
    statisticsRttLine (PingStats.new.record_received 1000000)
      = "rtt min/avg/max = 1.000/1.000/1.000 ms" := by
  exact ⟨rfl, rfl⟩

/-- Claim C5: receive_pong's classification — fewer than 28 bytes is
InvalidResponse; 28 or more bytes with a non-zero ICMP type byte at offset
20 is InvalidResponse; type 0 succeeds, extracting the sequence number
big-endian from offsets 24-25 and the ttl from offset 8. -/
theorem c5_receive_classification (buf : List Nat) :
    (buf.length < 28 → receiveClassify buf = .error .invalidResponse) ∧
    (28 ≤ buf.length → buf.getD 20 0 ≠ 0 →
      receiveClassify buf = .error .invalidResponse) ∧
    (28 ≤ buf.length → (∀ b ∈ buf, b < 256) → buf.getD 20 0 = 0 →
      receiveClassify buf = .ok (buf.getD 24 0 * 256 + buf.getD 25 0, buf.getD 8 0)) := by
  refine ⟨?_, ?_, ?_⟩
  · intro h
    unfold receiveClassify
    rw [if_neg (by omega)]
  · intro h1 h2
    unfold receiveClassify
    rw [if_pos h1, if_neg h2]
  · intro h1 hb h2
    unfold receiveClassify
    rw [if_pos h1, if_pos h2]
    have h25 : buf.getD 25 0 < 256 := getD_lt_256 hb (by omega)
    rw [show u16FromBe (buf.getD 24 0) (buf.getD 25 0)
        = buf.getD 24 0 * 256 + buf.getD 25 0 from or256_eq_add _ _ h25]

/-- Claim C5, witness at the 28-byte all-zero frame. -/
theorem c5_receive_classification_witness :
    receiveClassify validReplyFrame
      = .ok (validReplyFrame.getD 24 0 * 256 + validReplyFrame.getD 25 0,
             validReplyFrame.getD 8 0) :=
  (c5_receive_classification validReplyFrame).2.2 (by decide) (by decide) (by decide)

/-- Claim C8: loss percentage is 0 when nothing was sent, otherwise
(sent - received) / sent * 100, and in particular 25 after four
record_sent calls and three record_received calls. -/
theorem c8_loss_percentage :
    (∀ s : PingStats, s.packets_sent = 0 → s.get_loss_percetange = 0) ∧
    (∀ s : PingStats, s.packets_sent ≠ 0 →
      s.get_loss_percetange
        = ((s.packets_sent - s.packets_received : Nat) : ℚ) / (s.packets_sent : ℚ) * 100) ∧
    statsFourThree.get_loss_percetange = 25 := by
  refine ⟨?_, ?_, ?_⟩
  · intro s h
    simp [PingStats.get_loss_percetange, h]
  · intro s h
    simp [PingStats.get_loss_percetange, h]
  · have hsent : statsFourThree.packets_sent = 4 := rfl
    have hrecv : statsFourThree.packets_received = 3 := rfl
    simp [PingStats.get_loss_percetange, hsent, hrecv]
    norm_num

/-- Claim C8, witness: the zero-sent case at the fresh statistics state. -/
theorem c8_loss_percentage_witness : PingStats.new.get_loss_percetange = 0 :=
  c8_loss_percentage.1 PingStats.new rfl

/-! Lemmas about the session loop. -/

theorem sendPing_ok {st : Pinger} {seq t : Nat} {st' : Pinger}
    (h : sendPing st seq t = .ok st') :
    st' = { st with
            stats := st.stats.record_sent
            current_ping_start := some t
            sent_frames := st.sent_frames ++ [sendFrame seq] } := by
  unfold sendPing at h
  rcases hs : st.socket with _ | u
  · simp [hs] at h
  · simp [hs] at h
    exact h.symm

theorem receivePong_ok {st : Pinger} {frame : List Nat} {t : Nat} {st' : Pinger}
    (h : receivePong st frame t = .ok st') :
    st'.stats.packets_sent = st.stats.packets_sent ∧
    st.stats.packets_received ≤ st'.stats.packets_received ∧
    st'.stats.packets_received ≤ st.stats.packets_received + 1 ∧
    st'.sent_frames = st.sent_frames ∧
    (st.current_ping_start = none → st'.stats = st.stats) := by
  unfold receivePong at h
  rcases hs : st.socket with _ | u
  · simp [hs] at h
  · simp [hs] at h
    split at h
    · split at h
      · rcases hp : st.current_ping_start with _ | start
        · rw [hp] at h
          simp at h
          subst h
          exact ⟨rfl, Nat.le_refl _, Nat.le_succ _, rfl, fun _ => rfl⟩
        · rw [hp] at h
          simp at h
          subst h
          refine ⟨rfl, Nat.le_succ _, Nat.le_refl _, rfl, fun hc => ?_⟩
          cases hc
      · simp at h
    · simp at h

theorem runLoop_stats_mono (cfg : PingConfig) :
    ∀ (inputs : List IterInput) (st : Pinger) (seq : Nat) (st' : Pinger),
      runLoop cfg st seq inputs = some (.ok st') →
      st.stats.packets_sent ≤ st'.stats.packets_sent ∧
      st.stats.packets_received ≤ st'.stats.packets_received ∧
      (st.stats.packets_received ≤ st.stats.packets_sent →
        st'.stats.packets_received ≤ st'.stats.packets_sent)
  | [], st, seq, st', h => by
      unfold runLoop at h
      split at h
      · cases h
      · simp at h
        subst h
        exact ⟨Nat.le_refl _, Nat.le_refl _, id⟩
  | inp :: rest, st, seq, st', h => by
      unfold runLoop at h
      split at h
      · split at h
        · split at h
          · simp at h
          · rename_i st1 hsend
            split at h
            · simp at h
            · rename_i st2 hrecv
              have ih := runLoop_stats_mono cfg rest st2 _ st' h
              have hs1 := sendPing_ok hsend
              have hr := receivePong_ok hrecv
              have hsent1 : st1.stats.packets_sent = st.stats.packets_sent + 1 := by
                rw [hs1]
                rfl
              have hrecv1 : st1.stats.packets_received = st.stats.packets_received := by
                rw [hs1]
                rfl
              refine ⟨?_, ?_, ?_⟩
              · omega
              · omega
              · intro hinv
                omega
        · simp at h
          subst h
          exact ⟨Nat.le_refl _, Nat.le_refl _, id⟩
      · simp at h
        subst h
        exact ⟨Nat.le_refl _, Nat.le_refl _, id⟩

theorem runLoop_frames (cfg : PingConfig) :
    ∀ (inputs : List IterInput) (st : Pinger) (seq : Nat) (st' : Pinger),
      runLoop cfg st seq inputs = some (.ok st') → seq < 4294967296 →
      ∀ n, n < st'.sent_frames.length →
        (n < st.sent_frames.length ∧
          st'.sent_frames.getD n [] = st.sent_frames.getD n []) ∨
        (st.sent_frames.length ≤ n ∧
          st'.sent_frames.getD n []
            = sendFrame ((seq + (n - st.sent_frames.length)) % 4294967296))
  | [], st, seq, st', h, hseq => by
      unfold runLoop at h
      split at h
      · cases h
      · simp at h
        subst h
        intro n hn
        exact Or.inl ⟨hn, rfl⟩
  | inp :: rest, st, seq, st', h, hseq => by
      unfold runLoop at h
      split at h
      · split at h
        · split at h
          · simp at h
          · rename_i st1 hsend
            split at h
            · simp at h
            · rename_i st2 hrecv
              have ih := runLoop_frames cfg rest st2 _ st' h (Nat.mod_lt _ (by norm_num))
              have hs1 := sendPing_ok hsend
              have hfr2 : st2.sent_frames = st.sent_frames ++ [sendFrame seq] := by
                rw [(receivePong_ok hrecv).2.2.2.1, hs1]
              intro n hn
              rcases ih n hn with ⟨hl, heq⟩ | ⟨hl, heq⟩
              · rw [hfr2, List.length_append, List.length_singleton] at hl
                rw [hfr2] at heq
                rcases Nat.lt_or_ge n st.sent_frames.length with hn2 | hn2
                · left
                  refine ⟨hn2, ?_⟩
                  rw [heq, List.getD_append _ _ _ _ hn2]
                · right
                  have hnL : n = st.sent_frames.length := by omega
                  refine ⟨hn2, ?_⟩
                  rw [heq, hnL]
                  have hgd : (st.sent_frames ++ [sendFrame seq]).getD
                      st.sent_frames.length [] = sendFrame seq := by
                    simp [List.getD, List.getElem?_concat_length]
                  rw [hgd]
                  have : (seq + (st.sent_frames.length - st.sent_frames.length))
                      % 4294967296 = seq := by
                    simp [Nat.mod_eq_of_lt hseq]
                  rw [this]
              · right
                rw [hfr2, List.length_append, List.length_singleton] at hl
                refine ⟨by omega, ?_⟩
                rw [heq, hfr2, List.length_append, List.length_singleton,
                  Nat.mod_add_mod]
                congr 1
                omega
        · simp at h
          subst h
          intro n hn
          exact Or.inl ⟨hn, rfl⟩
      · simp at h
        subst h
        intro n hn
        exact Or.inl ⟨hn, rfl⟩

/-- The sequence-number field (bytes 4-5, big-endian) of the frame built
for counter value s is s truncated to 16 bits. -/
theorem sendFrame_seqField (s : Nat) :
    u16FromBe ((sendFrame s).getD 4 0) ((sendFrame s).getD 5 0) = s % 65536 := by
  show u16FromBe ((s % 65536) >>> 8) ((s % 65536) &&& 0xFF) = s % 65536
  exact beBytesWord (s % 65536)

/-- The state after one complete successful iteration: the loop, started
from a fresh initialized Pinger on cfgOnce with inputOk, terminates
normally in pingerAfterOne. -/
theorem runLoop_once_eval :
    runLoop cfgOnce Pinger.new.init 0 [inputOk] = some (.ok pingerAfterOne) := rfl

/-- Claim C1, counterexample: with count = 1 and an invalid (4-byte)
inbound frame, run aborts with the InvalidResponse error — it does not
proceed to the statistics summary. -/
theorem c1_run_aborts_cex : run cfgOnce [inputBad] = some (.error .invalidResponse) := rfl

/-- Claim C1 (amended): when a received frame fails structural validation,
receive_pong's InvalidResponse propagates through run's `?` operator: the
loop aborts at that iteration (the send is still recorded) and the run
ends with the InvalidResponse error instead of the statistics summary. -/
theorem c1_invalid_response_aborts (cfg : PingConfig) (st : Pinger) (seq : Nat)
    (inp : IterInput) (rest : List IterInput)
    (hsock : st.socket = some ())
    (hcont : shoudContinue cfg seq = true) (hrun : inp.running = true)
    (hbad : inp.frame.length < 28 ∨ inp.frame.getD 20 0 ≠ 0) :
    runLoop cfg st seq (inp :: rest) = some (.error .invalidResponse) := by
  rcases hbad with hlen | htype
  · simp [runLoop, hcont, hrun, sendPing, hsock, receivePong, Nat.not_le.mpr hlen]
  · by_cases hl : 28 ≤ inp.frame.length
    · have htype2 : ¬ inp.frame[20]?.getD 0 = 0 := by
        simpa [List.getD] using htype
      simp [runLoop, hcont, hrun, sendPing, hsock, receivePong, hl, htype2]
    · simp [runLoop, hcont, hrun, sendPing, hsock, receivePong, hl]

/-- Claim C1, witness for the amended claim: the first iteration of a
count-1 run on a too-short frame. -/
theorem c1_invalid_response_aborts_witness :
    runLoop cfgOnce Pinger.new.init 0 [inputBad] = some (.error .invalidResponse) :=
  c1_invalid_response_aborts cfgOnce Pinger.new.init 0 inputBad [] rfl rfl rfl
    (Or.inl (by decide))

/-- Claim C7: in a run of the session loop started from a fresh initialized
state with the counter at 0, the 16-bit sequence-number field (bytes 4-5,
big-endian) of the nth transmitted Echo Request frame is n mod 65536 (the
u32 counter increments by one per transmission; the u16 cast wraps the
wire value at 65536). -/
theorem c7_sequence_field (cfg : PingConfig) (inputs : List IterInput) (st' : Pinger)
    (h : runLoop cfg Pinger.new.init 0 inputs = some (.ok st'))
    (n : Nat) (hn : n < st'.sent_frames.length) :
    u16FromBe ((st'.sent_frames.getD n []).getD 4 0)
      ((st'.sent_frames.getD n []).getD 5 0) = n % 65536 := by
  have hfr := runLoop_frames cfg inputs Pinger.new.init 0 st' h (by norm_num) n hn
  rcases hfr with ⟨hl, _⟩ | ⟨_, heq⟩
  · simp [Pinger.new, Pinger.init] at hl
  · have hl0 : Pinger.new.init.sent_frames.length = 0 := rfl
    rw [hl0] at heq
    rw [heq, sendFrame_seqField]
    omega

/-- Claim C7, witness: the single frame of a completed count-1 run carries
sequence field 0. -/
theorem c7_sequence_field_witness :
    u16FromBe ((pingerAfterOne.sent_frames.getD 0 []).getD 4 0)
      ((pingerAfterOne.sent_frames.getD 0 []).getD 5 0) = 0 % 65536 :=
  c7_sequence_field cfgOnce [inputOk] pingerAfterOne runLoop_once_eval 0 (by decide)

/-- Claim C9: packets_sent and packets_received never decrease across any
segment of the session loop; from a fresh session every terminating loop
state satisfies packets_received ≤ packets_sent; and receive_pong records
a receive only when an outstanding-request timestamp set by a prior send
is present (with current_ping_start empty the statistics are unchanged). -/
theorem c9_stats_invariant :
    (∀ (cfg : PingConfig) (st : Pinger) (seq : Nat) (inputs : List IterInput)
        (st' : Pinger), runLoop cfg st seq inputs = some (.ok st') →
      st.stats.packets_sent ≤ st'.stats.packets_sent ∧
      st.stats.packets_received ≤ st'.stats.packets_received) ∧
    (∀ (cfg : PingConfig) (inputs : List IterInput) (st' : Pinger),
      runLoop cfg Pinger.new.init 0 inputs = some (.ok st') →
      st'.stats.packets_received ≤ st'.stats.packets_sent) ∧
    (∀ (st : Pinger) (frame : List Nat) (t : Nat) (st' : Pinger),
      st.current_ping_start = none → receivePong st frame t = .ok st' →
      st'.stats = st.stats) := by
  refine ⟨?_, ?_, ?_⟩
  · intro cfg st seq inputs st' h
    have hm := runLoop_stats_mono cfg inputs st seq st' h
    exact ⟨hm.1, hm.2.1⟩
  · intro cfg inputs st' h
    have hm := runLoop_stats_mono cfg inputs Pinger.new.init 0 st' h
    exact hm.2.2 (Nat.le_refl 0)
  · intro st frame t st' hnone h
    exact (receivePong_ok h).2.2.2.2 hnone

/-- Claim C9, witness: the completed count-1 run with one reply satisfies
received ≤ sent. -/
theorem c9_stats_invariant_witness :
    pingerAfterOne.stats.packets_received ≤ pingerAfterOne.stats.packets_sent :=
  c9_stats_invariant.2.1 cfgOnce [inputOk] pingerAfterOne runLoop_once_eval

end RsPing
